import Mathlib

/-!
Verification development for the rentnest property-rental backend.

The embedding below translates the decision logic of the Express routes in
`backend/routes/propertyRoutes.js` (and its earlier variant without image
upload) and the auth routes (`POST /api/auth/login`) into Lean:

* the Mongo store is a `List Property`; `Property.find(filter)` is `List.filter`
  over an evaluated filter document; `.sort(\x7bcreatedAt: -1\x7d)` is insertion
  sort by descending `createdAt`; `.skip`/`.limit` are `List.drop`/`List.take`;
* the dynamic filter object built field by field from `req.query` becomes a
  list of conditions (`Cond`) assembled by `buildFilter` exactly in source
  order, with `new RegExp(s, 'i')` embedded as a compiled pattern over a
  fragment of JavaScript regular expressions (literals and `.`); a pattern
  using a metacharacter outside the fragment makes `buildFilter` return
  `none`, standing for the `SyntaxError` thrown by the `RegExp` constructor
  (caught by the route's catch-all, a 500 response);
* `req.query` parameters are `Option String` (absent or a raw string), and
  JavaScript truthiness of such a parameter is `jsTruthy`; numeric conversion
  `Number(s)` is embedded for decimal integer numerals (the only numerals the
  claims quantify over), with a non-numeral yielding a bound that matches
  nothing, mirroring a NaN comparison;
* ids (`ObjectId`) are `Nat`, compared as the source compares their strings.
-/

namespace RentNest

/-! ### A fragment of JavaScript regular expressions

`new RegExp(s, 'i')` treats the user-supplied string `s` as a regex pattern.
We embed the fragment in which every character is a literal except `.`
(match any character); the metacharacters `* + ? ( ) [ \ ^ $ | \x7b` fall
outside the fragment and make compilation fail, as the full constructor
either errors (e.g. unbalanced `(`) or changes matching semantics. -/

inductive RTok where
  | lit (c : Char)
  | dot
deriving DecidableEq

def charEqCI (a b : Char) : Bool := a.toLower == b.toLower

def tokMatches : RTok → Char → Bool
  | .lit c, d => charEqCI c d
  | .dot, _ => true

/-- Does the token list match a prefix of `cs`? -/
def matchHere : List RTok → List Char → Bool
  | [], _ => true
  | _ :: _, [] => false
  | t :: ts, c :: cs => tokMatches t c && matchHere ts cs

/-- Does the token list match starting at some position of `cs`?
This is `RegExp.prototype.test` / Mongo `$regex` semantics (unanchored). -/
def regexSearch (toks : List RTok) : List Char → Bool
  | [] => matchHere toks []
  | c :: cs => matchHere toks (c :: cs) || regexSearch toks cs

def regexTest (toks : List RTok) (s : String) : Bool :=
  regexSearch toks s.data

def jsRegexMeta : List Char :=
  ['*', '+', '?', '(', ')', '[', '\\', '^', '$', '|', '\x7b']

def compileChar (c : Char) : Option RTok :=
  if c = '.' then some RTok.dot
  else if c ∈ jsRegexMeta then none
  else some (RTok.lit c)

def compileChars : List Char → Option (List RTok)
  | [] => some []
  | c :: cs =>
    match compileChar c, compileChars cs with
    | some t, some ts => some (t :: ts)
    | _, _ => none

/-- The embedding of `new RegExp(s, 'i')`: `none` when `s` uses a
metacharacter outside the embedded fragment. -/
def compilePattern (s : String) : Option (List RTok) :=
  compileChars s.data

/-- Case-insensitive substring occurrence, the specification-side notion:
the lowered needle is a contiguous run of the lowered haystack. -/
def occursIn (needle : List Char) : List Char → Bool
  | [] => needle.isEmpty
  | c :: cs => needle.isPrefixOf (c :: cs) || occursIn needle cs

def containsCI (pat s : String) : Bool :=
  occursIn (pat.data.map Char.toLower) (s.data.map Char.toLower)

/-! ### Data model (spec §3; the Mongoose schemas are not under `src/`) -/

structure Location where
  division : String
  district : String
  area : String
deriving DecidableEq

structure Rent where
  amount : Int
  period : String
deriving DecidableEq

structure Features where
  bedrooms : Int
  bathrooms : Int
  furnished : String
deriving DecidableEq

structure Photo where
  url : String
  caption : String
deriving DecidableEq

structure Property where
  id : Nat
  owner : Nat
  title : String
  description : String
  propertyType : String
  location : Location
  rent : Rent
  features : Features
  amenities : List String
  photos : List Photo
  contact : String
  terms : String
  isAvailable : Bool
  createdAt : Nat
deriving DecidableEq

/-! ### Query parameters and the dynamic filter (GET /api/properties) -/

structure Query where
  propertyType : Option String
  division : Option String
  district : Option String
  area : Option String
  minRent : Option String
  maxRent : Option String
  bedrooms : Option String
  furnished : Option String
  search : Option String
  page : Option String
  limit : Option String
deriving DecidableEq

def emptyQuery : Query :=
  ⟨none, none, none, none, none, none, none, none, none, none, none⟩

/-- JavaScript truthiness of an optional query-string parameter:
absent and the empty string are falsy, every other string truthy. -/
def jsTruthy : Option String → Bool
  | none => false
  | some s => !s.data.isEmpty

/-- The value of a decimal digit character (code points 48–57). -/
def digitVal? (c : Char) : Option Nat :=
  if 48 ≤ c.toNat && c.toNat ≤ 57 then some (c.toNat - 48) else none

def natDigitsAux : List Char → Nat → Option Nat
  | [], acc => some acc
  | c :: cs, acc =>
    match digitVal? c with
    | some d => natDigitsAux cs (acc * 10 + d)
    | none => none

/-- The decimal natural numerals among strings; `none` otherwise. -/
def jsNat? (s : String) : Option Nat :=
  match s.data with
  | [] => none
  | l => natDigitsAux l 0

/-- `Number(s)` for the decimal integer numerals the routes receive;
`none` stands for NaN (a NaN bound in a Mongo comparison matches nothing). -/
def jsInt? (s : String) : Option Int :=
  match s.data with
  | '-' :: rest =>
    match natDigitsAux rest 0, rest with
    | _, [] => none
    | some n, _ => some (-(n : Int))
    | none, _ => none
  | _ => (jsNat? s).map (fun n => (n : Int))

/-- One entry of the Mongo filter document built by the route. -/
inductive Cond where
  | isAvail (b : Bool)
  | propType (s : String)
  | locDivision (toks : List RTok)
  | locDistrict (toks : List RTok)
  | locArea (toks : List RTok)
  | rentRange (lo hi : Option String)
  | bedroomsEq (s : String)
  | furnishedEq (s : String)
  | orTitleDesc (toks : List RTok)
deriving DecidableEq

def evalCond (p : Property) : Cond → Bool
  | .isAvail b => p.isAvailable == b
  | .propType s => p.propertyType == s
  | .locDivision toks => regexTest toks p.location.division
  | .locDistrict toks => regexTest toks p.location.district
  | .locArea toks => regexTest toks p.location.area
  | .rentRange lo hi =>
    (match lo with
     | none => true
     | some s => match jsInt? s with
       | some n => decide (n ≤ p.rent.amount)
       | none => false) &&
    (match hi with
     | none => true
     | some s => match jsInt? s with
       | some n => decide (p.rent.amount ≤ n)
       | none => false)
  | .bedroomsEq s =>
    (match jsInt? s with
     | some n => p.features.bedrooms == n
     | none => false)
  | .furnishedEq s => p.features.furnished == s
  | .orTitleDesc toks => regexTest toks p.title || regexTest toks p.description

/-- One `if (param) filter.x = value` step of the route. -/
def addCond (b : Bool) (c : Cond) (f : List Cond) : List Cond :=
  if b then f ++ [c] else f

/-- One `if (param) filter.x = new RegExp(param, 'i')` step: when the
parameter is truthy the pattern is compiled, and a pattern outside the
embedded fragment aborts the whole construction (the constructor threw). -/
def addRegexCond (b : Bool) (pat : String) (mk : List RTok → Cond)
    (f : List Cond) : Option (List Cond) :=
  if b then (compilePattern pat).map (fun t => f ++ [mk t]) else some f

/-- The filter document assembled field by field, in source order, starting
from `\x7bisAvailable: true\x7d`. `none` models the `RegExp` constructor
throwing (the route then responds 500). -/
def buildFilter (q : Query) : Option (List Cond) :=
  (addRegexCond (jsTruthy q.division) (q.division.getD "") Cond.locDivision
    (addCond (jsTruthy q.propertyType)
      (Cond.propType (q.propertyType.getD "")) [Cond.isAvail true])).bind
  fun f2 =>
  (addRegexCond (jsTruthy q.district) (q.district.getD "")
    Cond.locDistrict f2).bind fun f3 =>
  (addRegexCond (jsTruthy q.area) (q.area.getD "") Cond.locArea f3).bind
  fun f4 =>
  (addRegexCond (jsTruthy q.search) (q.search.getD "") Cond.orTitleDesc
    (addCond (jsTruthy q.furnished) (Cond.furnishedEq (q.furnished.getD ""))
      (addCond (jsTruthy q.bedrooms) (Cond.bedroomsEq (q.bedrooms.getD ""))
        (addCond (jsTruthy q.minRent || jsTruthy q.maxRent)
          (Cond.rentRange
            (if jsTruthy q.minRent then some (q.minRent.getD "") else none)
            (if jsTruthy q.maxRent then some (q.maxRent.getD "") else none))
          f4)))).bind
  fun f8 => some f8

/-- `regexOrFalse pat s`: the compiled pattern matches somewhere in `s`
(`false` when the pattern is outside the embedded fragment). -/
def regexOrFalse (pat s : String) : Bool :=
  match compilePattern pat with
  | some t => regexTest t s
  | none => false

/-- The supplied-filters predicate in the words of the specification
(§4.2): each supplied (truthy) query parameter contributes one conjunct —
exact match for `propertyType`/`furnished`, a pattern match on the
location subfields, an inclusive bound for `minRent`/`maxRent` (either
alone), exact numeric match for `bedrooms`, and the `search` disjunction
over title and description nested inside the outer conjunction. This is
the specification-side counterpart that `buildFilter`'s conjunction is
proved to refine (availability aside). -/
def filterHolds (q : Query) (p : Property) : Bool :=
  (!(jsTruthy q.propertyType) || p.propertyType == q.propertyType.getD "") &&
  (!(jsTruthy q.division) || regexOrFalse (q.division.getD "") p.location.division) &&
  (!(jsTruthy q.district) || regexOrFalse (q.district.getD "") p.location.district) &&
  (!(jsTruthy q.area) || regexOrFalse (q.area.getD "") p.location.area) &&
  (!(jsTruthy q.minRent) ||
    (match jsInt? (q.minRent.getD "") with
     | some n => decide (n ≤ p.rent.amount)
     | none => false)) &&
  (!(jsTruthy q.maxRent) ||
    (match jsInt? (q.maxRent.getD "") with
     | some n => decide (p.rent.amount ≤ n)
     | none => false)) &&
  (!(jsTruthy q.bedrooms) ||
    (match jsInt? (q.bedrooms.getD "") with
     | some n => p.features.bedrooms == n
     | none => false)) &&
  (!(jsTruthy q.furnished) || p.features.furnished == q.furnished.getD "") &&
  (!(jsTruthy q.search) ||
    (regexOrFalse (q.search.getD "") p.title ||
     regexOrFalse (q.search.getD "") p.description))

def evalConds (conds : List Cond) (p : Property) : Bool :=
  conds.all (evalCond p)

/-! ### Listing with sort and pagination -/

/-- The Mongo sort `\x7bcreatedAt: -1\x7d`: most recent first. -/
def recencyGE (a b : Property) : Prop := b.createdAt ≤ a.createdAt

instance : DecidableRel recencyGE := fun a b => Nat.decLe b.createdAt a.createdAt

instance : IsTotal Property recencyGE := ⟨fun a b => Nat.le_total b.createdAt a.createdAt⟩

instance : IsTrans Property recencyGE := ⟨fun _ _ _ h h' => Nat.le_trans h' h⟩

def sortByCreatedDesc (l : List Property) : List Property :=
  l.insertionSort recencyGE

/-- `Number(page)` with the destructuring default `page = 1`. The routes are
only exercised with positive integer pages; a non-numeral maps to `0`
(excluded by hypothesis in every theorem below, as a NaN/negative skip is
rejected by the store). -/
def pageOf (q : Query) : Nat :=
  match q.page with
  | none => 1
  | some s => (jsNat? s).getD 0

/-- `Number(limit)` with the destructuring default `limit = 10`. -/
def limitOf (q : Query) : Nat :=
  match q.limit with
  | none => 10
  | some s => (jsNat? s).getD 0

/-- `Math.ceil(total / limit)` on natural inputs with `limit > 0`. -/
def jsCeilDiv (a b : Nat) : Nat := (a + b - 1) / b

structure ListResult where
  properties : List Property
  total : Nat
  totalPages : Nat
  currentPage : Nat
deriving DecidableEq

/-- GET /api/properties: build the filter, query with sort, skip and limit,
count the matching documents. `none` is the 500 path (regex construction
threw). -/
def listProperties (store : List Property) (q : Query) : Option ListResult :=
  match buildFilter q with
  | none => none
  | some conds =>
    some { properties :=
             ((sortByCreatedDesc (store.filter (evalConds conds))).drop
               ((pageOf q - 1) * limitOf q)).take (limitOf q),
           total := (store.filter (evalConds conds)).length,
           totalPages := jsCeilDiv (store.filter (evalConds conds)).length
             (limitOf q),
           currentPage := pageOf q }

/-! ### Mutating operations: update, delete, toggle-availability

Each handler does `Property.findById(req.params.id)`, returns 404 when the
result is null, then 403 when `property.owner.toString() !==
req.user._id.toString()`, and only then mutates. An operation returns the
outcome together with the resulting store; on an error the store is the
input store (nothing was written). -/

def findById (store : List Property) (i : Nat) : Option Property :=
  store.find? (fun p => p.id == i)

inductive PropError where
  | notFound
  | forbidden
deriving DecidableEq

/-- The top-level fields of a `PUT /api/properties/:id` request body, each
optionally present, passed by the route to `findByIdAndUpdate` unchanged.
An `owner` field may be present in the input. -/
structure Patch where
  owner : Option Nat
  title : Option String
  description : Option String
  propertyType : Option String
  location : Option Location
  rent : Option Rent
  features : Option Features
  amenities : Option (List String)
  photos : Option (List Photo)
  contact : Option String
  terms : Option String
  isAvailable : Option Bool
deriving DecidableEq

def emptyPatch : Patch :=
  ⟨none, none, none, none, none, none, none, none, none, none, none, none⟩

/-- Modelled from the spec: the Mongoose schema `models/Property.js` is not
under `src/`, and it is the schema that decides how `findByIdAndUpdate`
applies a request body. Per spec §3 (`owner` is "immutable after creation")
and §4.2 ("partial field replacement (unspecified fields retained); the
`owner` field must not be alterable via patch even if present in input"),
a patch replaces exactly the supplied fields, and a supplied `owner` is
discarded. `id` and `createdAt` are system-managed and not patchable. -/
def applyPatch (p : Property) (t : Patch) : Property :=
  { p with
    title := t.title.getD p.title
    description := t.description.getD p.description
    propertyType := t.propertyType.getD p.propertyType
    location := t.location.getD p.location
    rent := t.rent.getD p.rent
    features := t.features.getD p.features
    amenities := t.amenities.getD p.amenities
    photos := t.photos.getD p.photos
    contact := t.contact.getD p.contact
    terms := t.terms.getD p.terms
    isAvailable := t.isAvailable.getD p.isAvailable }

/-- Write a document back by id, as `findByIdAndUpdate` / `document.save()`
do: the document with the matching `_id` is replaced, everything else kept. -/
def saveById (store : List Property) (i : Nat) (p' : Property) : List Property :=
  store.map (fun q => if q.id == i then p' else q)

/-- PUT /api/properties/:id. -/
def updateProperty (store : List Property) (i callerId : Nat) (t : Patch) :
    Except PropError Property × List Property :=
  match findById store i with
  | none => (.error .notFound, store)
  | some p =>
    if p.owner != callerId then (.error .forbidden, store)
    else
      let p' := applyPatch p t
      (.ok p', saveById store i p')

/-- DELETE /api/properties/:id (`property.deleteOne()`: permanent removal). -/
def deleteProperty (store : List Property) (i callerId : Nat) :
    Except PropError Unit × List Property :=
  match findById store i with
  | none => (.error .notFound, store)
  | some p =>
    if p.owner != callerId then (.error .forbidden, store)
    else (.ok (), store.filter (fun q => q.id != i))

/-- PATCH /api/properties/:id/toggle-availability. -/
def toggleAvailability (store : List Property) (i callerId : Nat) :
    Except PropError Property × List Property :=
  match findById store i with
  | none => (.error .notFound, store)
  | some p =>
    if p.owner != callerId then (.error .forbidden, store)
    else
      let p' := { p with isAvailable := !p.isAvailable }
      (.ok p', saveById store i p')

/-! ### Create (POST /api/properties)

Two variants exist in the repository. The multipart one
(`backend/routes/propertyRoutes.js`) receives the structured fields as
JSON strings from FormData and runs `JSON.parse` on all six of them
*before* the required-field check; any parse failure (including a field
that is absent, since `JSON.parse(undefined)` throws) lands in the
catch-all, a 500 response. The earlier JSON-body variant receives the
structured fields as values and only runs the required-field truthiness
check. -/

/-- Outcome of `JSON.parse` on one structured field, as the model sees it:
the parse threw, produced a falsy value (`null`, …), or produced a value. -/
inductive JParse (α : Type) where
  | thrown
  | nullish
  | value (a : α)

/-- `JSON.parse(field)` where `field` came from FormData: an absent field
throws (`JSON.parse(undefined)` is a `SyntaxError`). -/
def parseField {α : Type} (f : String → JParse α) : Option String → JParse α
  | none => .thrown
  | some s => f s

def JParse.isThrown {α : Type} : JParse α → Bool
  | .thrown => true
  | _ => false

def JParse.isTruthyVal {α : Type} : JParse α → Bool
  | .value _ => true
  | _ => false

/-- The parsed value; the default is never used on the paths where the
route has already checked the field's truthiness. -/
def JParse.valueD {α : Type} : JParse α → α → α
  | .value a, _ => a
  | _, d => d

/-- The external decoding and blob-store capabilities the create route uses:
`JSON.parse` per structured field, and the Cloudinary upload. An upload
returns the secure URL or fails (`Except.error`). -/
structure CreateCaps where
  parseLocation : String → JParse Location
  parseRent : String → JParse Rent
  parseFeatures : String → JParse Features
  parseAmenities : String → JParse (List String)
  parseContact : String → JParse String
  parseTerms : String → JParse String
  upload : String → Except String String

/-- The multipart request: text fields and JSON-string structured fields
from FormData, plus the image file buffers in order. -/
structure CreateInput where
  title : Option String
  description : Option String
  propertyType : Option String
  location : Option String
  rent : Option String
  features : Option String
  amenities : Option String
  contact : Option String
  terms : Option String
  images : List String

inductive CreateResult where
  | created (p : Property)
  | validationErr
  | serverErr
deriving DecidableEq

def CreateResult.isCreated : CreateResult → Bool
  | .created _ => true
  | _ => false

/-- The sequential upload loop: each file is sent to the blob store in
order; the first failure rejects and aborts the whole create. Each success
becomes a photo `\x7burl, caption: ''\x7d` in input order. -/
def uploadImages (up : String → Except String String) :
    List String → Except String (List Photo)
  | [] => .ok []
  | f :: fs =>
    match up f with
    | .error e => .error e
    | .ok u =>
      match uploadImages up fs with
      | .error e => .error e
      | .ok rest => .ok ({ url := u, caption := "" } :: rest)

/-- POST /api/properties (multipart variant): parse the six structured
fields, check the required fields, upload the images, then persist with
`owner` taken from the authenticated caller. Returns the outcome and the
resulting store; `newId` and `now` stand for the system-generated id and
timestamp. -/
def createProperty (caps : CreateCaps) (store : List Property)
    (callerId newId now : Nat) (inp : CreateInput) :
    CreateResult × List Property :=
  let pl := parseField caps.parseLocation inp.location
  let pr := parseField caps.parseRent inp.rent
  let pf := parseField caps.parseFeatures inp.features
  let pa := parseField caps.parseAmenities inp.amenities
  let pc := parseField caps.parseContact inp.contact
  let pt := parseField caps.parseTerms inp.terms
  if pl.isThrown || pr.isThrown || pf.isThrown || pa.isThrown ||
      pc.isThrown || pt.isThrown then
    (.serverErr, store)
  else if !(jsTruthy inp.title) || !(jsTruthy inp.description) ||
      !(jsTruthy inp.propertyType) || !pl.isTruthyVal || !pr.isTruthyVal ||
      !pc.isTruthyVal then
    (.validationErr, store)
  else
    match uploadImages caps.upload inp.images with
    | .error _ => (.serverErr, store)
    | .ok photos =>
      let p : Property :=
        { id := newId, owner := callerId,
          title := inp.title.getD "", description := inp.description.getD "",
          propertyType := inp.propertyType.getD "",
          location := pl.valueD ⟨"", "", ""⟩, rent := pr.valueD ⟨0, ""⟩,
          features := pf.valueD ⟨0, 0, ""⟩, amenities := pa.valueD [],
          photos := photos, contact := pc.valueD "",
          terms := pt.valueD "", isAvailable := true, createdAt := now }
      (.created p, store ++ [p])

/-- The JSON-body variant of create (the earlier route file): structured
fields arrive as values; only the required-field truthiness check runs. -/
structure SimpleCreateInput where
  title : Option String
  description : Option String
  propertyType : Option String
  location : Option Location
  rent : Option Rent
  features : Option Features
  amenities : Option (List String)
  photos : Option (List Photo)
  contact : Option String
  terms : Option String

def createPropertySimple (store : List Property) (callerId newId now : Nat)
    (inp : SimpleCreateInput) : CreateResult × List Property :=
  if !(jsTruthy inp.title) || !(jsTruthy inp.description) ||
      !(jsTruthy inp.propertyType) || inp.location.isNone ||
      inp.rent.isNone || inp.contact.isNone then
    (.validationErr, store)
  else
    let p : Property :=
      { id := newId, owner := callerId,
        title := inp.title.getD "", description := inp.description.getD "",
        propertyType := inp.propertyType.getD "",
        location := inp.location.getD ⟨"", "", ""⟩,
        rent := inp.rent.getD ⟨0, ""⟩,
        features := inp.features.getD ⟨0, 0, ""⟩,
        amenities := inp.amenities.getD [],
        photos := inp.photos.getD [], contact := inp.contact.getD "",
        terms := inp.terms.getD "",
        isAvailable := true, createdAt := now }
    (.created p, store ++ [p])

/-! ### Authentication (POST /api/auth/login) -/

structure User where
  id : Nat
  fullName : String
  email : Option String
  mobile : Option String
  passwordHash : String
  accountType : String
  isActive : Bool
deriving DecidableEq

inductive LoginResult where
  | success (u : User)
  | badRequest
  | invalidCredentials
  | accountDisabled
deriving DecidableEq

/-- The identifier routing rule: an identifier containing `@` is looked up
as an email, anything else as a mobile number — no fallback. -/
def findLoginUser (users : List User) (ident : String) : Option User :=
  if ident.data.contains '@' then users.find? (fun u => u.email == some ident)
  else users.find? (fun u => u.mobile == some ident)

/-- POST /api/auth/login. `verify` is the external credential-verification
capability (`user.comparePassword`), taking the plaintext and the stored
digest. -/
def login (verify : String → String → Bool) (users : List User)
    (emailOrMobile password : Option String) : LoginResult :=
  if !(jsTruthy emailOrMobile) || !(jsTruthy password) then .badRequest
  else
    let ident := emailOrMobile.getD ""
    let pw := password.getD ""
    match findLoginUser users ident with
    | none => .invalidCredentials
    | some u =>
      if !(verify pw u.passwordHash) then .invalidCredentials
      else if !u.isActive then .accountDisabled
      else .success u

/-! ### Concrete fixtures used by witnesses and counterexamples -/

/-- A matching, available property with creation time `i` and id `i`. -/
def mkProp (i : Nat) : Property :=
  { id := i, owner := 7, title := "Lakeview Apartment",
    description := "near the lake", propertyType := "apartment",
    location := ⟨"Dhaka", "Dhaka", "Banani"⟩,
    rent := ⟨3000, "month"⟩, features := ⟨2, 1, "yes"⟩,
    amenities := ["lift"], photos := [], contact := "01700000000",
    terms := "none", isAvailable := true, createdAt := i }

/-- Twenty-five matching properties, creation times 1 through 25. -/
def store25 : List Property := (List.range 25).map (fun i => mkProp (i + 1))

def q25 : Query :=
  { emptyQuery with page := some "2", limit := some "10" }

/-- Items 11 through 20 of `store25` in most-recent-first order. -/
def page2Expected : List Property :=
  (List.range 10).map (fun k => mkProp (15 - k))

/-- A property whose title contains "abc" but not the three-character
string "a.c". -/
def pDot : Property :=
  { mkProp 1 with title := "abc", description := "zzz" }

def qDot : Query := { emptyQuery with search := some "a.c" }

/-- Parse/upload capabilities for the create counterexample and witnesses:
`JSON.parse` on the concrete strings used (`"oops"` is not JSON and
throws; the other fields decode to the values shown), uploads succeed. -/
def caps0 : CreateCaps :=
  { parseLocation := fun _ => .thrown,
    parseRent := fun _ => .value ⟨1000, "month"⟩,
    parseFeatures := fun _ => .value ⟨2, 1, "yes"⟩,
    parseAmenities := fun _ => .value ["lift"],
    parseContact := fun _ => .value "01700000000",
    parseTerms := fun _ => .value "none",
    upload := fun f => .ok ("https://cdn/" ++ f) }

/-- Capabilities whose parses all succeed and whose uploads all succeed. -/
def capsOk : CreateCaps :=
  { caps0 with parseLocation := fun _ => .value ⟨"Dhaka", "Dhaka", "Banani"⟩ }

/-- Capabilities whose uploads always fail. -/
def capsUpFail : CreateCaps :=
  { capsOk with upload := fun _ => .error "upstream down" }

/-- A create request that is complete except that its `location` field is
the non-JSON string `"oops"` (so `JSON.parse` throws on it). -/
def inpBadLoc : CreateInput :=
  { title := some "Lakeview Apartment", description := some "near the lake",
    propertyType := some "apartment", location := some "oops",
    rent := some "rjson", features := some "fjson", amenities := some "ajson",
    contact := some "cjson", terms := some "tjson", images := ["img1"] }

/-- The same request with a parsable location field. -/
def inpGood : CreateInput := { inpBadLoc with location := some "ljson" }

/-- A create request missing title (with everything else parsable). -/
def inpNoTitle : CreateInput := { inpGood with title := none }

/-- A well-formed JSON-body create request for the earlier route variant. -/
def sinpGood : SimpleCreateInput :=
  { title := some "Lakeview Apartment", description := some "near the lake",
    propertyType := some "apartment",
    location := some ⟨"Dhaka", "Dhaka", "Banani"⟩,
    rent := some ⟨3000, "month"⟩, features := some ⟨2, 1, "yes"⟩,
    amenities := some ["lift"], photos := some [],
    contact := some "01700000000", terms := some "none" }

/-- The property that `createProperty capsOk [] 7 1 0 inpGood` persists. -/
def goodProp : Property :=
  { id := 1, owner := 7, title := "Lakeview Apartment",
    description := "near the lake", propertyType := "apartment",
    location := ⟨"Dhaka", "Dhaka", "Banani"⟩, rent := ⟨1000, "month"⟩,
    features := ⟨2, 1, "yes"⟩, amenities := ["lift"],
    photos := [⟨"https://cdn/img1", ""⟩], contact := "01700000000",
    terms := "none", isAvailable := true, createdAt := 0 }

/-- A patch that tries to reassign `owner` while also renaming the title. -/
def patchOwner99 : Patch :=
  { emptyPatch with owner := some 99, title := some "Updated title" }

def sampleUser : User :=
  { id := 7, fullName := "Asha", email := some "user@example.com",
    mobile := some "01700000000", passwordHash := "digest7",
    accountType := "owner", isActive := true }

/-- A verification capability for witnesses: the plaintext must equal the
stored digest (enough to exhibit both a match and a mismatch). -/
def sampleVerify (plain digest : String) : Bool := plain == digest

/-! ## Lemmas about the store primitives -/

theorem findById_id_eq {store : List Property} {i : Nat} {p : Property}
    (h : findById store i = some p) : p.id = i := by
  have hpred := List.find?_some h
  exact eq_of_beq hpred

theorem findById_mem {store : List Property} {i : Nat} {p : Property}
    (h : findById store i = some p) : p ∈ store :=
  List.mem_of_find?_eq_some h

theorem findById_saveById {store : List Property} {i : Nat} {p p' : Property}
    (h : findById store i = some p) (hid : p'.id = i) :
    findById (saveById store i p') i = some p' := by
  induction store with
  | nil => simp [findById] at h
  | cons q t ih =>
    by_cases hq : q.id = i
    · simp [findById, saveById, List.find?, hq, hid]
    · have hqb : (q.id == i) = false := by
        exact beq_eq_false_iff_ne.mpr hq
      have ht : findById t i = some p := by
        simpa [findById, List.find?, hqb] using h
      simpa [findById, saveById, List.find?, hqb] using ih ht

theorem mem_saveById_of_ne {store : List Property} {i : Nat}
    {p' q : Property} (hq : q ∈ store) (hne : q.id ≠ i) :
    q ∈ saveById store i p' := by
  have hrw : (if q.id == i then p' else q) = q := by
    simp [beq_eq_false_iff_ne.mpr hne]
  exact hrw ▸ List.mem_map_of_mem _ hq

theorem of_mem_saveById {store : List Property} {i : Nat} {p' q : Property}
    (hid : p'.id = i) (hq : q ∈ saveById store i p') (hne : q.id ≠ i) :
    q ∈ store := by
  obtain ⟨a, ha, hfa⟩ := List.mem_map.mp hq
  by_cases hai : (a.id == i) = true
  · rw [if_pos hai] at hfa
    exact absurd (hfa ▸ hid) hne
  · rw [if_neg (by simpa using hai)] at hfa
    exact hfa ▸ ha

theorem length_saveById (store : List Property) (i : Nat) (p' : Property) :
    (saveById store i p').length = store.length :=
  List.length_map _ _

/-! ## Lemmas about the dynamic filter -/

theorem evalConds_append (f g : List Cond) (p : Property) :
    evalConds (f ++ g) p = (evalConds f p && evalConds g p) := by
  simp [evalConds, List.all_append]

theorem evalConds_addCond (b : Bool) (c : Cond) (f : List Cond)
    (p : Property) :
    evalConds (addCond b c f) p = (evalConds f p && (!b || evalCond p c)) := by
  cases b <;> simp [addCond, evalConds_append, evalConds]

theorem addRegexCond_some {b : Bool} {pat : String} {mk : List RTok → Cond}
    {f g : List Cond} (h : addRegexCond b pat mk f = some g) (p : Property) :
    evalConds g p = (evalConds f p &&
      (!b || (match compilePattern pat with
              | some t => evalCond p (mk t)
              | none => false))) := by
  cases b with
  | false =>
    simp [addRegexCond] at h
    subst h
    simp
  | true =>
    simp only [addRegexCond, if_pos, Option.map_eq_some'] at h
    obtain ⟨t, ht, hg⟩ := h
    subst hg
    rw [ht]
    simp [evalConds_append, evalConds]

theorem matchCompile_locDivision (pat : String) (p : Property) :
    (match compilePattern pat with
     | some t => evalCond p (Cond.locDivision t)
     | none => false) = regexOrFalse pat p.location.division := by
  unfold regexOrFalse
  cases compilePattern pat <;> simp [evalCond]

theorem matchCompile_locDistrict (pat : String) (p : Property) :
    (match compilePattern pat with
     | some t => evalCond p (Cond.locDistrict t)
     | none => false) = regexOrFalse pat p.location.district := by
  unfold regexOrFalse
  cases compilePattern pat <;> simp [evalCond]

theorem matchCompile_locArea (pat : String) (p : Property) :
    (match compilePattern pat with
     | some t => evalCond p (Cond.locArea t)
     | none => false) = regexOrFalse pat p.location.area := by
  unfold regexOrFalse
  cases compilePattern pat <;> simp [evalCond]

theorem matchCompile_orTitleDesc (pat : String) (p : Property) :
    (match compilePattern pat with
     | some t => evalCond p (Cond.orTitleDesc t)
     | none => false) =
      (regexOrFalse pat p.title || regexOrFalse pat p.description) := by
  unfold regexOrFalse
  cases compilePattern pat <;> simp [evalCond]

/-- The conjunction built by `buildFilter` holds of a property exactly when
the property is available and every supplied filter holds of it. -/
theorem evalConds_buildFilter {q : Query} {conds : List Cond}
    (h : buildFilter q = some conds) (p : Property) :
    evalConds conds p = (p.isAvailable && filterHolds q p) := by
  simp only [buildFilter, Option.bind_eq_some, Option.some.injEq] at h
  obtain ⟨f2, h2, f3, h3, f4, h4, f8, h8, hconds⟩ := h
  subst hconds
  rw [addRegexCond_some h8 p, evalConds_addCond, evalConds_addCond,
    evalConds_addCond, addRegexCond_some h4 p, addRegexCond_some h3 p,
    addRegexCond_some h2 p, evalConds_addCond]
  rw [matchCompile_locDivision, matchCompile_locDistrict,
    matchCompile_locArea, matchCompile_orTitleDesc]
  unfold filterHolds
  cases hm : jsTruthy q.minRent <;> cases hx : jsTruthy q.maxRent <;>
    simp [evalConds, evalCond, Bool.and_assoc]

/-! ## Claim theorems -/

/-- C1: for every store, query and property, the property belongs to the
pre-pagination matching set (the evaluated filter document) iff it is in
the store, matches every supplied filter, and is available; and a property
returned by `list` is always available, however well it matches the other
filters. -/
theorem c1_availability_gate (store : List Property) (q : Query)
    (conds : List Cond) (p : Property) (h : buildFilter q = some conds) :
    (p ∈ store.filter (evalConds conds) ↔
      p ∈ store ∧ filterHolds q p = true ∧ p.isAvailable = true) ∧
    (∀ r, listProperties store q = some r → p ∈ r.properties →
      p.isAvailable = true) := by
  have hev := evalConds_buildFilter h p
  constructor
  · rw [List.mem_filter, hev]
    constructor
    · rintro ⟨hmem, hand⟩
      rcases Bool.and_eq_true_iff.mp hand with ⟨ha, hf⟩
      exact ⟨hmem, hf, ha⟩
    · rintro ⟨hmem, hf, ha⟩
      exact ⟨hmem, Bool.and_eq_true_iff.mpr ⟨ha, hf⟩⟩
  · intro r hr hpr
    simp only [listProperties, h, Option.some.injEq] at hr
    subst hr
    have h1 : p ∈ (sortByCreatedDesc (store.filter (evalConds conds))).drop
        ((pageOf q - 1) * limitOf q) :=
      (List.take_sublist _ _).mem hpr
    have h2 : p ∈ sortByCreatedDesc (store.filter (evalConds conds)) :=
      (List.drop_sublist _ _).mem h1
    have h3 : p ∈ store.filter (evalConds conds) := by
      simpa [sortByCreatedDesc, List.mem_insertionSort] using h2
    have h4 := (List.mem_filter.mp h3).2
    rw [hev] at h4
    exact (Bool.and_eq_true_iff.mp h4).1

/-- `jsCeilDiv n l` is the ceiling of `n / l` when `l > 0`, characterized
by `n ≤ l * ceil < n + l`. -/
theorem jsCeilDiv_spec {n l : Nat} (hl : 0 < l) :
    n ≤ l * jsCeilDiv n l ∧ l * jsCeilDiv n l < n + l := by
  unfold jsCeilDiv
  have hdm := Nat.div_add_mod (n + l - 1) l
  have hml : (n + l - 1) % l < l := Nat.mod_lt _ hl
  generalize hX : l * ((n + l - 1) / l) = X at hdm ⊢
  generalize hM : (n + l - 1) % l = M at hdm hml
  omega

/-- C4: with a constructible filter and a positive limit, omitted `page`
and `limit` default to 1 and 10; the returned page is the slice of the
matching set, ordered most recent first, starting at offset
`(page-1)*limit` with at most `limit` items; `total` is the
pre-pagination count of matching properties; and `totalPages` is
`ceil(total/limit)` (characterized by `total ≤ limit*totalPages <
total+limit`). -/
theorem c4_pagination (store : List Property) (q : Query) (conds : List Cond)
    (r : ListResult) (h : buildFilter q = some conds)
    (hr : listProperties store q = some r) (hlim : 0 < limitOf q) :
    (q.page = none → pageOf q = 1) ∧
    (q.limit = none → limitOf q = 10) ∧
    r.currentPage = pageOf q ∧
    r.total = (store.filter (evalConds conds)).length ∧
    List.Perm (sortByCreatedDesc (store.filter (evalConds conds)))
      (store.filter (evalConds conds)) ∧
    List.Sorted recencyGE (sortByCreatedDesc (store.filter (evalConds conds))) ∧
    r.properties = ((sortByCreatedDesc (store.filter (evalConds conds))).drop
      ((pageOf q - 1) * limitOf q)).take (limitOf q) ∧
    r.properties.length ≤ limitOf q ∧
    (∀ k, k < limitOf q → r.properties[k]? =
      (sortByCreatedDesc (store.filter (evalConds conds)))[(pageOf q - 1) *
        limitOf q + k]?) ∧
    r.total ≤ limitOf q * r.totalPages ∧
    limitOf q * r.totalPages < r.total + limitOf q := by
  simp only [listProperties, h, Option.some.injEq] at hr
  subst hr
  refine ⟨?_, ?_, rfl, rfl, List.perm_insertionSort _ _,
    List.sorted_insertionSort _ _, rfl, List.length_take_le _ _, ?_,
    (jsCeilDiv_spec hlim).1, (jsCeilDiv_spec hlim).2⟩
  · intro hp
    simp [pageOf, hp]
  · intro hl
    simp [limitOf, hl]
  · intro k hk
    simp [List.getElem?_take, hk, List.getElem?_drop]

theorem c4_witness :
    page2Expected.length ≤ limitOf q25 ∧ (25 : Nat) ≤ limitOf q25 * 3 := by
  have hc : listProperties store25 q25 = some
      { properties := page2Expected, total := 25, totalPages := 3,
        currentPage := 2 } := by decide
  have h4 := c4_pagination store25 q25 [Cond.isAvail true]
    { properties := page2Expected, total := 25, totalPages := 3,
      currentPage := 2 } (by rfl) hc (by decide)
  obtain ⟨-, -, -, -, -, -, -, hlen, -, hle, -⟩ := h4
  exact ⟨hlen, hle⟩

theorem c1_witness :
    (mkProp 1 ∈ [mkProp 1].filter (evalConds [Cond.isAvail true]) ↔
      mkProp 1 ∈ [mkProp 1] ∧ filterHolds emptyQuery (mkProp 1) = true ∧
        (mkProp 1).isAvailable = true) ∧
    (∀ r, listProperties [mkProp 1] emptyQuery = some r →
      mkProp 1 ∈ r.properties → (mkProp 1).isAvailable = true) :=
  c1_availability_gate [mkProp 1] emptyQuery [Cond.isAvail true] (mkProp 1)
    (by rfl)

/-- C2: for every property id, caller and store state, `update`, `delete`
and `toggleAvailability` evaluate NotFound strictly before Forbidden: a
missing id yields NotFound whoever the caller is, and an existing id owned
by someone else yields Forbidden with the store left unchanged (the patch
is not applied, nothing is deleted or toggled). -/
theorem c2_notFound_before_forbidden (store : List Property)
    (i callerId : Nat) (t : Patch) :
    (findById store i = none →
      updateProperty store i callerId t = (.error .notFound, store) ∧
      deleteProperty store i callerId = (.error .notFound, store) ∧
      toggleAvailability store i callerId = (.error .notFound, store)) ∧
    (∀ p, findById store i = some p → p.owner ≠ callerId →
      updateProperty store i callerId t = (.error .forbidden, store) ∧
      deleteProperty store i callerId = (.error .forbidden, store) ∧
      toggleAvailability store i callerId = (.error .forbidden, store)) := by
  constructor
  · intro h
    simp [updateProperty, deleteProperty, toggleAvailability, h]
  · intro p hp hown
    have hb : (p.owner != callerId) = true := bne_iff_ne.mpr hown
    simp [updateProperty, deleteProperty, toggleAvailability, hp, hb]

theorem c2_witness :
    updateProperty [] 1 2 emptyPatch = (.error .notFound, ([] : List Property)) ∧
    toggleAvailability [mkProp 1] 1 2 = (.error .forbidden, [mkProp 1]) := by
  have h1 := (c2_notFound_before_forbidden [] 1 2 emptyPatch).1 (by decide)
  have h2 := (c2_notFound_before_forbidden [mkProp 1] 1 2 emptyPatch).2
    (mkProp 1) (by decide) (by decide)
  exact ⟨h1.1, h2.2.2⟩

/-- C3: a successful update never changes the stored owner, even when the
request body carries an `owner` field: the updated document's owner equals
the pre-update owner, and it is what the store then holds under the id. -/
theorem c3_owner_immutable (store : List Property) (i callerId : Nat)
    (t : Patch) (res : Property) (store' : List Property)
    (h : updateProperty store i callerId t = (.ok res, store')) :
    ∀ p, findById store i = some p →
      res.owner = p.owner ∧ findById store' i = some res := by
  intro p hp
  simp only [updateProperty, hp] at h
  by_cases hown : (p.owner != callerId) = true
  · simp [hown] at h
  · rw [if_neg hown] at h
    have hres : applyPatch p t = res := by
      have := congrArg Prod.fst h
      simpa using this
    have hstore : saveById store i (applyPatch p t) = store' := by
      have := congrArg Prod.snd h
      simpa using this
    constructor
    · rw [← hres]
      rfl
    · rw [← hstore, ← hres]
      have hid2 : (applyPatch p t).id = i := by
        have := findById_id_eq hp
        simpa [applyPatch] using this
      exact findById_saveById hp hid2

theorem c3_witness :
    (applyPatch (mkProp 1) patchOwner99).owner = (mkProp 1).owner ∧
    findById (saveById [mkProp 1] 1 (applyPatch (mkProp 1) patchOwner99)) 1 =
      some (applyPatch (mkProp 1) patchOwner99) := by
  exact c3_owner_immutable [mkProp 1] 1 7 patchOwner99
    (applyPatch (mkProp 1) patchOwner99)
    (saveById [mkProp 1] 1 (applyPatch (mkProp 1) patchOwner99))
    (by rfl) (mkProp 1) (by decide)

/-- C9: a single owned toggle flips `isAvailable` and returns the new
state; toggling twice in succession restores the original value. -/
theorem c9_toggle_pair (store : List Property) (i callerId : Nat)
    (p : Property) (hp : findById store i = some p)
    (hown : p.owner = callerId) :
    ∃ p' store', toggleAvailability store i callerId = (.ok p', store') ∧
      p'.isAvailable = !p.isAvailable ∧
      ∃ p'' store'', toggleAvailability store' i callerId = (.ok p'', store'') ∧
        p''.isAvailable = p.isAvailable := by
  have hid := findById_id_eq hp
  have hb : ¬((p.owner != callerId) = true) := by simp [hown]
  refine ⟨{ p with isAvailable := !p.isAvailable },
    saveById store i { p with isAvailable := !p.isAvailable }, ?_, rfl, ?_⟩
  · simp only [toggleAvailability, hp]
    rw [if_neg hb]
  · have hid1 : ({ p with isAvailable := !p.isAvailable } : Property).id = i := hid
    have hp' : findById (saveById store i { p with isAvailable := !p.isAvailable }) i =
        some { p with isAvailable := !p.isAvailable } :=
      findById_saveById hp hid1
    refine ⟨{ p with isAvailable := !(!p.isAvailable) },
      saveById (saveById store i { p with isAvailable := !p.isAvailable }) i
        { p with isAvailable := !(!p.isAvailable) }, ?_, ?_⟩
    · simp only [toggleAvailability, hp']
      rw [if_neg (by simp [hown])]
    · simp

theorem c9_witness :
    ∃ p' store', toggleAvailability [mkProp 1] 1 7 = (.ok p', store') ∧
      p'.isAvailable = !(mkProp 1).isAvailable ∧
      ∃ p'' store'', toggleAvailability store' 1 7 = (.ok p'', store'') ∧
        p''.isAvailable = (mkProp 1).isAvailable :=
  c9_toggle_pair [mkProp 1] 1 7 (mkProp 1) (by decide) (by decide)

/-- C10: a successful toggle changes only the `isAvailable` field of the
targeted property — every other field is preserved — and every other
property in the store is untouched (same membership away from the id,
same store size). -/
theorem c10_toggle_frame (store : List Property) (i callerId : Nat)
    (p p' : Property) (store' : List Property)
    (hp : findById store i = some p)
    (h : toggleAvailability store i callerId = (.ok p', store')) :
    (p'.id = p.id ∧ p'.owner = p.owner ∧ p'.title = p.title ∧
     p'.description = p.description ∧ p'.propertyType = p.propertyType ∧
     p'.location = p.location ∧ p'.rent = p.rent ∧
     p'.features = p.features ∧ p'.amenities = p.amenities ∧
     p'.photos = p.photos ∧ p'.contact = p.contact ∧ p'.terms = p.terms ∧
     p'.createdAt = p.createdAt) ∧
    store'.length = store.length ∧
    (∀ q, q ∈ store → q.id ≠ i → q ∈ store') ∧
    (∀ q, q ∈ store' → q.id ≠ i → q ∈ store) := by
  simp only [toggleAvailability, hp] at h
  by_cases hb : (p.owner != callerId) = true
  · simp [hb] at h
  · rw [if_neg hb] at h
    have hres : ({ p with isAvailable := !p.isAvailable } : Property) = p' := by
      have := congrArg Prod.fst h
      simpa using this
    have hstore : saveById store i { p with isAvailable := !p.isAvailable } = store' := by
      have := congrArg Prod.snd h
      simpa using this
    have hid' : p'.id = i := by
      rw [← hres]
      dsimp only
      exact findById_id_eq hp
    refine ⟨?_, ?_, ?_, ?_⟩
    · rw [← hres]
      exact ⟨rfl, rfl, rfl, rfl, rfl, rfl, rfl, rfl, rfl, rfl, rfl, rfl, rfl⟩
    · rw [← hstore]
      exact length_saveById store i _
    · intro q hq hne
      rw [← hstore]
      exact mem_saveById_of_ne hq hne
    · intro q hq hne
      rw [← hstore] at hq
      exact of_mem_saveById (hres ▸ hid') hq hne

/-! ## Regex-fragment lemmas for the search filter -/

theorem compileChars_lits {l : List Char}
    (h : ∀ c ∈ l, ¬c = '.' ∧ c ∉ jsRegexMeta) :
    compileChars l = some (l.map RTok.lit) := by
  induction l with
  | nil => rfl
  | cons c cs ih =>
    obtain ⟨hc1, hc2⟩ := h c (List.mem_cons_self c cs)
    have hcc : compileChar c = some (RTok.lit c) := by
      simp [compileChar, hc1, hc2]
    simp [compileChars, hcc,
      ih (fun d hd => h d (List.mem_cons_of_mem _ hd))]

theorem isPrefixOf_nil_eq (l : List Char) :
    l.isPrefixOf ([] : List Char) = l.isEmpty := by
  cases l <;> simp [List.isPrefixOf]

theorem matchHere_lits (l : List Char) : ∀ cs : List Char,
    matchHere (l.map RTok.lit) cs =
      (l.map Char.toLower).isPrefixOf (cs.map Char.toLower) := by
  induction l with
  | nil => intro cs; simp [matchHere, List.isPrefixOf]
  | cons a as ih =>
    intro cs
    cases cs with
    | nil => simp [matchHere, List.isPrefixOf]
    | cons b bs =>
      simp [matchHere, List.isPrefixOf, tokMatches, charEqCI, ih bs]

theorem regexSearch_lits (l : List Char) : ∀ cs : List Char,
    regexSearch (l.map RTok.lit) cs =
      occursIn (l.map Char.toLower) (cs.map Char.toLower) := by
  intro cs
  induction cs with
  | nil =>
    simp [regexSearch, occursIn, matchHere_lits, isPrefixOf_nil_eq]
  | cons b bs ih =>
    simp [regexSearch, occursIn, matchHere_lits, ih]

/-- C5 (amended): the route builds `new RegExp(search, 'i')`, so the
search string is a regex pattern, not a literal. For search strings made
of non-metacharacter characters the filter coincides with case-insensitive
substring match against title or description (the original claim); a
string containing `.`, `*`, `(`, … is interpreted with regex semantics
instead (see the counterexample). -/
theorem c5_search_substring (s : String) (p : Property)
    (hs : ∀ c ∈ s.data, ¬c = '.' ∧ c ∉ jsRegexMeta) :
    ∃ toks, compilePattern s = some toks ∧
      evalCond p (Cond.orTitleDesc toks) =
        (containsCI s p.title || containsCI s p.description) := by
  refine ⟨s.data.map RTok.lit, compileChars_lits hs, ?_⟩
  simp [evalCond, regexTest, regexSearch_lits, containsCI]

theorem c5_witness :
    ∃ toks, compilePattern "lake" = some toks ∧
      evalCond (mkProp 1) (Cond.orTitleDesc toks) =
        (containsCI "lake" (mkProp 1).title ||
          containsCI "lake" (mkProp 1).description) :=
  c5_search_substring "lake" (mkProp 1) (by decide)

/-- C5 (counterexample): with search string "a.c" the property titled
"abc" satisfies the search filter of `list` (the `.` matches any
character), yet "a.c" does not occur case-insensitively as a substring of
its title or description — so the claimed iff fails for arbitrary search
strings. -/
theorem c5_counterexample :
    listProperties [pDot] qDot =
      some { properties := [pDot], total := 1, totalPages := 1,
             currentPage := 1 } ∧
    containsCI "a.c" pDot.title = false ∧
    containsCI "a.c" pDot.description = false := by
  exact ⟨by decide, by decide, by decide⟩

theorem c10_witness :
    ({ mkProp 1 with isAvailable := false } : Property).owner = (mkProp 1).owner ∧
      mkProp 2 ∈ [{ mkProp 1 with isAvailable := false }, mkProp 2] := by
  have hc := c10_toggle_frame [mkProp 1, mkProp 2] 1 7 (mkProp 1)
    { mkProp 1 with isAvailable := false }
    [{ mkProp 1 with isAvailable := false }, mkProp 2] (by decide) (by rfl)
  exact ⟨hc.1.2.1, hc.2.2.1 (mkProp 2) (by decide) (by decide)⟩

/-! ## Upload-loop lemmas and the create claims -/

theorem uploadImages_ok_spec {up : String → Except String String} :
    ∀ {l : List String} {phs : List Photo}, uploadImages up l = .ok phs →
      phs.length = l.length ∧
      ∀ k, k < l.length →
        ∃ f u, l[k]? = some f ∧ up f = .ok u ∧
          phs[k]? = some { url := u, caption := "" } := by
  intro l
  induction l with
  | nil =>
    intro phs h
    simp [uploadImages] at h
    subst h
    exact ⟨rfl, fun k hk => by simp at hk⟩
  | cons f fs ih =>
    intro phs h
    simp only [uploadImages] at h
    cases hf : up f with
    | error e => rw [hf] at h; exact absurd h (by simp)
    | ok u =>
      rw [hf] at h
      cases hrest : uploadImages up fs with
      | error e => rw [hrest] at h; exact absurd h (by simp)
      | ok rest =>
        rw [hrest] at h
        obtain rfl : ({ url := u, caption := "" } : Photo) :: rest = phs := by
          simpa using h
        obtain ⟨hlen, hspec⟩ := ih hrest
        refine ⟨by simpa using hlen, ?_⟩
        intro k hk
        cases k with
        | zero => exact ⟨f, u, by simp, hf, by simp⟩
        | succ k' =>
          obtain ⟨f', u', h1, h2, h3⟩ := hspec k' (by simpa using hk)
          exact ⟨f', u', by simpa using h1, h2, by simpa using h3⟩

/-- C7: in the multipart create route, the images are uploaded one by one
in input order before anything is persisted: a failing upload aborts the
whole create with the store unchanged (no partial property), and a
successful create persists exactly one property whose photo sequence is
the uploaded URLs in input order. -/
theorem c7_upload_atomic (caps : CreateCaps) (store : List Property)
    (callerId newId now : Nat) (inp : CreateInput) :
    (∀ e, uploadImages caps.upload inp.images = .error e →
      (createProperty caps store callerId newId now inp).1.isCreated = false ∧
      (createProperty caps store callerId newId now inp).2 = store) ∧
    (∀ phs p store', uploadImages caps.upload inp.images = .ok phs →
      createProperty caps store callerId newId now inp = (.created p, store') →
      p.photos = phs ∧ store' = store ++ [p]) ∧
    (∀ phs, uploadImages caps.upload inp.images = .ok phs →
      phs.length = inp.images.length ∧
      ∀ k, k < inp.images.length →
        ∃ f u, inp.images[k]? = some f ∧ caps.upload f = .ok u ∧
          phs[k]? = some { url := u, caption := "" }) := by
  refine ⟨?_, ?_, fun phs h => uploadImages_ok_spec h⟩
  · intro e he
    simp only [createProperty]
    split
    · exact ⟨rfl, rfl⟩
    · split
      · exact ⟨rfl, rfl⟩
      · rw [he]
        exact ⟨rfl, rfl⟩
  · intro phs p store' hup hcr
    simp only [createProperty] at hcr
    split at hcr
    · simp at hcr
    · split at hcr
      · simp at hcr
      · rw [hup] at hcr
        simp only [Prod.mk.injEq, CreateResult.created.injEq] at hcr
        obtain ⟨hr1, hr2⟩ := hcr
        exact ⟨by rw [← hr1], by rw [← hr2, ← hr1]⟩

theorem c7_witness :
    ((createProperty capsUpFail [] 7 1 0 inpGood).1.isCreated = false ∧
     (createProperty capsUpFail [] 7 1 0 inpGood).2 = []) ∧
    (goodProp.photos = [{ url := "https://cdn/img1", caption := "" }] ∧
     [goodProp] = [] ++ [goodProp]) := by
  refine ⟨(c7_upload_atomic capsUpFail [] 7 1 0 inpGood).1 "upstream down"
    (by rfl), ?_⟩
  exact (c7_upload_atomic capsOk [] 7 1 0 inpGood).2.1
    [{ url := "https://cdn/img1", caption := "" }] goodProp [goodProp]
    (by rfl) (by rfl)

/-- C6 (amended): in the multipart create route a missing or unparsable
structured field (location, rent, features, amenities, contact, terms)
aborts the create with the generic server-fault outcome — `JSON.parse`
runs before the required-field check, so even an absent required
structured field lands on the 500 path, not the 400 ValidationError the
claim states; a missing `title`, `description` or `propertyType` (or a
parsed-but-falsy location/rent/contact) with all parses surviving yields
the ValidationError outcome; in the JSON-body variant every missing
required field yields ValidationError; and on every non-created outcome no
property is persisted. -/
theorem c6_create_validation (caps : CreateCaps) (store : List Property)
    (callerId newId now : Nat) (inp : CreateInput)
    (sinp : SimpleCreateInput) :
    (((parseField caps.parseLocation inp.location).isThrown ||
      (parseField caps.parseRent inp.rent).isThrown ||
      (parseField caps.parseFeatures inp.features).isThrown ||
      (parseField caps.parseAmenities inp.amenities).isThrown ||
      (parseField caps.parseContact inp.contact).isThrown ||
      (parseField caps.parseTerms inp.terms).isThrown) = true →
      createProperty caps store callerId newId now inp = (.serverErr, store)) ∧
    (((parseField caps.parseLocation inp.location).isThrown ||
      (parseField caps.parseRent inp.rent).isThrown ||
      (parseField caps.parseFeatures inp.features).isThrown ||
      (parseField caps.parseAmenities inp.amenities).isThrown ||
      (parseField caps.parseContact inp.contact).isThrown ||
      (parseField caps.parseTerms inp.terms).isThrown) = false →
      (!(jsTruthy inp.title) || !(jsTruthy inp.description) ||
       !(jsTruthy inp.propertyType) ||
       !(parseField caps.parseLocation inp.location).isTruthyVal ||
       !(parseField caps.parseRent inp.rent).isTruthyVal ||
       !(parseField caps.parseContact inp.contact).isTruthyVal) = true →
      createProperty caps store callerId newId now inp =
        (.validationErr, store)) ∧
    ((createProperty caps store callerId newId now inp).1.isCreated = false →
      (createProperty caps store callerId newId now inp).2 = store) ∧
    ((!(jsTruthy sinp.title) || !(jsTruthy sinp.description) ||
      !(jsTruthy sinp.propertyType) || sinp.location.isNone ||
      sinp.rent.isNone || sinp.contact.isNone) = true →
      createPropertySimple store callerId newId now sinp =
        (.validationErr, store)) := by
  refine ⟨?_, ?_, ?_, ?_⟩
  · intro h
    simp only [createProperty, h]
    rfl
  · intro h1 h2
    simp only [createProperty, h1, h2]
    rfl
  · intro hnc
    by_cases h1 : ((parseField caps.parseLocation inp.location).isThrown ||
      (parseField caps.parseRent inp.rent).isThrown ||
      (parseField caps.parseFeatures inp.features).isThrown ||
      (parseField caps.parseAmenities inp.amenities).isThrown ||
      (parseField caps.parseContact inp.contact).isThrown ||
      (parseField caps.parseTerms inp.terms).isThrown) = true
    · simp only [createProperty, h1]
      rfl
    · have h1' := Bool.eq_false_iff.mpr h1
      by_cases h2 : (!(jsTruthy inp.title) || !(jsTruthy inp.description) ||
        !(jsTruthy inp.propertyType) ||
        !(parseField caps.parseLocation inp.location).isTruthyVal ||
        !(parseField caps.parseRent inp.rent).isTruthyVal ||
        !(parseField caps.parseContact inp.contact).isTruthyVal) = true
      · simp only [createProperty, h1', h2]
        rfl
      · have h2' := Bool.eq_false_iff.mpr h2
        cases hup : uploadImages caps.upload inp.images with
        | error e => simp only [createProperty, h1', h2', hup]; rfl
        | ok phs =>
          exfalso
          simp [createProperty, h1', h2', hup, CreateResult.isCreated] at hnc
  · intro h
    simp only [createPropertySimple, h]
    rfl

theorem c6_witness :
    createProperty caps0 [] 7 1 0 inpBadLoc = (.serverErr, []) ∧
    createProperty capsOk [] 7 1 0 inpNoTitle = (.validationErr, []) ∧
    createPropertySimple [] 7 1 0 { sinpGood with title := none } =
      (.validationErr, []) := by
  refine ⟨(c6_create_validation caps0 [] 7 1 0 inpBadLoc sinpGood).1
    (by decide), ?_, ?_⟩
  · exact (c6_create_validation capsOk [] 7 1 0 inpNoTitle sinpGood).2.1
      (by decide) (by decide)
  · exact (c6_create_validation capsOk [] 7 1 0 inpNoTitle
      { sinpGood with title := none }).2.2.2 (by decide)

/-- C8: with both login fields supplied, an identifier matching no user
and a matching user with a non-verifying password both produce the very
same `invalidCredentials` outcome (the two failure runs are
indistinguishable to the caller), and the `accountDisabled` outcome occurs
only when a user was found, the password verified, and the user's active
flag is false. -/
theorem c8_login_nonEnumerable (verify : String → String → Bool)
    (users : List User) (ident pw : Option String)
    (hident : jsTruthy ident = true) (hpw : jsTruthy pw = true) :
    (findLoginUser users (ident.getD "") = none →
      login verify users ident pw = .invalidCredentials) ∧
    (∀ u, findLoginUser users (ident.getD "") = some u →
      verify (pw.getD "") u.passwordHash = false →
      login verify users ident pw = .invalidCredentials) ∧
    (login verify users ident pw = .accountDisabled →
      ∃ u, findLoginUser users (ident.getD "") = some u ∧
        verify (pw.getD "") u.passwordHash = true ∧ u.isActive = false) := by
  refine ⟨?_, ?_, ?_⟩
  · intro h
    simp [login, hident, hpw, h]
  · intro u hu hv
    simp [login, hident, hpw, hu, hv]
  · intro h
    cases hfind : findLoginUser users (ident.getD "") with
    | none => simp [login, hident, hpw, hfind] at h
    | some u =>
      cases hv : verify (pw.getD "") u.passwordHash with
      | false => simp [login, hident, hpw, hfind, hv] at h
      | true =>
        cases hact : u.isActive with
        | false => exact ⟨u, rfl, hv, hact⟩
        | true => simp [login, hident, hpw, hfind, hv, hact] at h

theorem c8_witness :
    login sampleVerify [sampleUser] (some "user@example.com")
      (some "wrong") = .invalidCredentials ∧
    login sampleVerify [sampleUser] (some "nosuchuser@example.com")
      (some "anything") = .invalidCredentials := by
  refine ⟨(c8_login_nonEnumerable sampleVerify [sampleUser]
    (some "user@example.com") (some "wrong") (by decide) (by decide)).2.1
    sampleUser (by decide) (by decide), ?_⟩
  exact (c8_login_nonEnumerable sampleVerify [sampleUser]
    (some "nosuchuser@example.com") (some "anything") (by decide)
    (by decide)).1 (by decide)

/-- C6 (counterexample): a create request whose `location` field is the
unparsable string "oops" (all other fields present and well-formed) ends
in the generic server-fault outcome, not the ValidationError client-error
outcome the claim requires; no property is persisted. -/
theorem c6_counterexample :
    createProperty caps0 [] 7 1 0 inpBadLoc = (.serverErr, []) ∧
    CreateResult.serverErr ≠ CreateResult.validationErr := by
  exact ⟨by decide, by decide⟩

end RentNest
